import Mathlib

/-!
Shallow embedding of the testrail-cli result-mapping and submission pipeline
(`src/core.js`): the HTML-entity decoding of lookup keys, the two-tier case
identity resolver `resolveCaseIdFromTestCase`, the XML-to-case-result extractor
`parseXmlIntoCaseResults` (including the recursive `testsuites` case), the
retry-bounded submission loop `addResultsForCasesAttempt`, and the
post-extraction phase of `reportXml`.

JavaScript objects whose fields may be absent are embedded as records of
`Option` fields; `undefined`/`null` is `none`.  JavaScript number-valued
truthiness is `≠ 0`.  The numeric value of a `time` attribute string is
embedded as a pair `(num, pow) : ℤ × ℕ` denoting `num / 10 ^ pow`, avoiding
any rational normalisation inside executable definitions.
-/

/-- Model of the external `html-entities` decoder (`HtmlEntities.decode`),
restricted to the four standard XML named entities; any other character
sequence passes through unchanged.  This is an external dependency of the
repository, not repository code. -/
def decodeEntityChars : List Char → List Char
  | '&' :: 'a' :: 'm' :: 'p' :: ';' :: rest => '&' :: decodeEntityChars rest
  | '&' :: 'l' :: 't' :: ';' :: rest => '<' :: decodeEntityChars rest
  | '&' :: 'g' :: 't' :: ';' :: rest => '>' :: decodeEntityChars rest
  | '&' :: 'q' :: 'u' :: 'o' :: 't' :: ';' :: rest => '"' :: decodeEntityChars rest
  | c :: rest => c :: decodeEntityChars rest
  | [] => []

/-- `HtmlEntities.decode` on a defined string. -/
def htmlDecode (s : String) : String :=
  (decodeEntityChars s.data).asString

/-- `HtmlEntities.decode` applied to a possibly-undefined attribute: the
library returns `''` for `undefined` (its guard `if (!str || !str.length)`). -/
def htmlDecodeOpt : Option String → String
  | some s => htmlDecode s
  | none => ""

/-- JavaScript property read `obj[k]` on a string-keyed map embedded as an
association list; `none` is `undefined`. -/
def jsGet {α : Type} (m : List (String × α)) (k : String) : Option α :=
  match m.find? (fun p => p.1 = k) with
  | some p => some p.2
  | none => none

/-- Truthiness of a JavaScript number-or-null-or-undefined value:
`undefined`/`null` and `0` are falsy, any other number is truthy. -/
def jsTruthyId : Option Int → Bool
  | some v => v != 0
  | none => false

/-- The configuration object consumed by `constructCore`: the flat
`caseNameToIdMap` and the optional two-level `caseClassAndNameToIdMap`.
`none` models an absent (hence falsy) config key. -/
structure Configs where
  caseClassAndNameToIdMap : Option (List (String × List (String × Int))) := none
  caseNameToIdMap : Option (List (String × Int)) := none

/-- A parsed XML tree node as produced by `xml-parser`: a tag name, a
string-keyed attribute map, and an ordered child list (always present,
possibly empty). -/
inductive XmlNode where
  | node (name : String) (attributes : List (String × String)) (children : List XmlNode) : XmlNode
deriving Repr

def XmlNode.nodeName : XmlNode → String
  | .node nm _ _ => nm

def XmlNode.nodeAttrs : XmlNode → List (String × String)
  | .node _ a _ => a

def XmlNode.childNodes : XmlNode → List XmlNode
  | .node _ _ cs => cs

/-- The first return point of `resolveCaseIdFromTestCase` (core.js 279-284):
the class-qualified lookup.  It produces a value only when the class map is
configured, contains the decoded class, the sub-table contains the decoded
name, and the stored id is truthy; in every other case the JS control flow
falls through to the flat lookup. -/
def classAndNameHit (configs : Configs) (testClass testName : String) : Option Int :=
  match configs.caseClassAndNameToIdMap with
  | none => none
  | some m =>
    match jsGet m testClass with
    | none => none
    | some sub =>
      match jsGet sub testName with
      | some v => if v != 0 then some v else none
      | none => none

/-- The second return point of `resolveCaseIdFromTestCase` (core.js 287-289):
the flat `caseNameToIdMap` lookup, again guarded by truthiness of the stored
value. -/
def nameHit (configs : Configs) (testName : String) : Option Int :=
  match configs.caseNameToIdMap with
  | none => none
  | some m =>
    match jsGet m testName with
    | some v => if v != 0 then some v else none
    | none => none

/-- `resolveCaseIdFromTestCase` (core.js 274-293): decode `class` and `name`
once, try the class-qualified table, then the flat table, else `null`. -/
def resolveCaseIdFromTestCase (configs : Configs) (testCase : XmlNode) : Option Int :=
  let testClass := htmlDecodeOpt (jsGet testCase.nodeAttrs "class")
  let testName := htmlDecodeOpt (jsGet testCase.nodeAttrs "name")
  match classAndNameHit configs testClass testName with
  | some v => some v
  | none => nameHit configs testName

/-- The Case Result object accumulated by `parseXmlIntoCaseResults`
(core.js 173-196).  Every field starts absent (`none`) like a fresh `{}`;
`status_id` is always assigned before the object is pushed, so it is a plain
`Nat`.  `version` exists in the record so that its (non-)assignment is
observable: the extractor in core.js never writes it. -/
structure CaseResult where
  case_id : Option Int := none
  elapsed : Option String := none
  status_id : Nat := 0
  comment : Option String := none
  version : Option String := none
deriving Repr, DecidableEq

def isDigitChar (c : Char) : Bool := '0' ≤ c && c ≤ '9'

/-- Decimal digit string to number, most significant first. -/
def digitsToNat (l : List Char) : Nat := l.foldl (fun a c => a * 10 + (c.toNat - 48)) 0

/-- Split a character list at the first `'.'`, if any. -/
def splitFirstDot : List Char → List Char × Option (List Char)
  | [] => ([], none)
  | c :: rest =>
    if c = '.' then ([], some rest)
    else
      let p := splitFirstDot rest
      (c :: p.1, p.2)

/-- Model of JavaScript `Number` coercion on plain decimal literals, which is
what `testcase.attributes.time == 0` and `Math.ceil(testcase.attributes.time)`
perform on the `time` attribute string.  The result `(num, pow)` denotes the
rational `num / 10 ^ pow`; `none` models `NaN`.  (External JS semantics, not
repository code.) -/
def parseDecimal (s : String) : Option (Int × Nat) :=
  match s.data with
  | [] => some (0, 0)
  | cs =>
    let sgn : Int := match cs with | '-' :: _ => -1 | _ => 1
    let body := match cs with | '-' :: rest => rest | '+' :: rest => rest | _ => cs
    match splitFirstDot body with
    | (ip, none) =>
      if !ip.isEmpty && ip.all isDigitChar then some (sgn * (digitsToNat ip : Int), 0)
      else none
    | (ip, some fp) =>
      if fp.contains '.' then none
      else if (!ip.isEmpty || !fp.isEmpty) && ip.all isDigitChar && fp.all isDigitChar then
        some (sgn * ((digitsToNat ip : Int) * (10 : Int) ^ fp.length + (digitsToNat fp : Int)), fp.length)
      else none

/-- `Math.ceil` of `num / 10 ^ pow`, computed on integers (Euclidean division
makes `-((-num) / d)` the exact ceiling for `d > 0`); proved equal to
`Int.ceil` of the rational value in `jsMathCeilPow10_eq_ceil` below. -/
def jsMathCeilPow10 (num : Int) (pow : Nat) : Int :=
  -((-num) / (10 : Int) ^ pow)

/-- The per-`testcase` body of the `forEach` in `parseXmlIntoCaseResults`
(core.js 172-206).  Produces the pushed Case Result, or `none` when the child
is not a `testcase` element or when `caseResult.case_id` is falsy (the
"Only append tests we've mapped to a TestRail case" guard). -/
def processTestcase (configs : Configs) : XmlNode → Option CaseResult
  | .node nm attrs children =>
    if nm = "testcase" then
      let cid := resolveCaseIdFromTestCase configs (.node nm attrs children)
      let elapsed : Option String :=
        match jsGet attrs "time" with
        | some t =>
          match parseDecimal t with
          | some np =>
            some (toString (if np.1 = 0 then (1 : Int) else jsMathCeilPow10 np.1 np.2) ++ "s")
          | none => some "NaNs"
        | none => none
      let sc : Nat × Option String :=
        match children with
        | [] => (1, none)
        | first :: _ =>
          (5, match jsGet first.nodeAttrs "message" with
              | some m => if m != "" then some (htmlDecode m) else none
              | none => none)
      if jsTruthyId cid then
        some { case_id := cid, elapsed := elapsed, status_id := sc.1, comment := sc.2 }
      else none
    else none

mutual

/-- `parseXmlIntoCaseResults` (core.js 169-223) on one root node.  The first
branch requires the root to be named `testsuite` AND to have a non-empty
child list (`xml.root.children && xml.root.children.length`); the second
branch recurses through the children of a `testsuites` node, re-rooting each
child; everything else hits `process.exit(1)` (embedded as `Except.error`). -/
def parseXmlIntoCaseResults (configs : Configs) : XmlNode → Except Unit (List CaseResult)
  | .node nm _ children =>
    if nm = "testsuite" && !children.isEmpty then
      Except.ok (children.filterMap (processTestcase configs))
    else if nm = "testsuites" then
      parseSuiteList configs children
    else
      Except.error ()

/-- The `forEach` over the children of a `testsuites` node (core.js 211-215),
each child processed as a new root; a fatal error in any child aborts the
whole operation. -/
def parseSuiteList (configs : Configs) : List XmlNode → Except Unit (List CaseResult)
  | [] => Except.ok []
  | c :: rest =>
    match parseXmlIntoCaseResults configs c with
    | Except.error e => Except.error e
    | Except.ok r =>
      match parseSuiteList configs rest with
      | Except.error e => Except.error e
      | Except.ok rs => Except.ok (r ++ rs)

end

/-- The `fileContents.forEach` loop of `reportXml` (core.js 166-224): each
parsed document contributes its case results to the shared `caseResults`
array in file order; a fatal root error in any file aborts the whole
operation. -/
def extractAllFiles (configs : Configs) : List XmlNode → Except Unit (List CaseResult)
  | [] => Except.ok []
  | d :: rest =>
    match parseXmlIntoCaseResults configs d with
    | Except.error e => Except.error e
    | Except.ok r =>
      match extractAllFiles configs rest with
      | Except.error e => Except.error e
      | Except.ok rs => Except.ok (r ++ rs)

/-- One remote response as seen by the retry loops: `ok` is the outcome of
the per-operation success classification (`response.id` for `addRun`,
`response.completed_on` for `closeRun`, non-empty array for
`addResultsForCases`), `error` the `response.error` field read on failure. -/
structure SubmitResponse where
  ok : Bool
  error : String
deriving Repr, DecidableEq

/-- Terminal outcome of a retry-bounded submission: `console.log`-then-exit-0
success, or `console.error(response.error)`-then-exit-1 failure. -/
inductive SubmitOutcome where
  | success : SubmitOutcome
  | failure (error : String) : SubmitOutcome
deriving Repr, DecidableEq

/-- `maxCallAttemptsAllowed` (core.js line 25). -/
def maxCallAttemptsAllowed : Nat := 5

/-- The shared retry loop of `initializeTestRun`, `closeTestRun` and
`addResultsForCasesAttempt` (core.js 236-253): invoke the action, classify
the response; on failure retry while `apiCallsAttempted <
maxCallAttemptsAllowed`, incrementing the counter before each retry.
`remaining = maxCallAttemptsAllowed - apiCallsAttempted` (the guard
`apiCallsAttempted < maxCallAttemptsAllowed` is `remaining > 0`); `k` counts
invocations of the action already made, so `action k` is the `k+1`-st call.
Returns the outcome together with the total number of invocations. -/
def addResultsForCasesAttempt (action : Nat → SubmitResponse) :
    Nat → Nat → SubmitOutcome × Nat
  | remaining, k =>
    let response := action k
    if response.ok then (SubmitOutcome.success, k + 1)
    else
      match remaining with
      | 0 => (SubmitOutcome.failure response.error, k + 1)
      | r + 1 => addResultsForCasesAttempt action r (k + 1)

/-- A whole retry-bounded submission starting from a fresh command invocation
(`apiCallsAttempted = 0`). -/
def submit (action : Nat → SubmitResponse) : SubmitOutcome × Nat :=
  addResultsForCasesAttempt action maxCallAttemptsAllowed 0

/-- Observable outcome of the post-extraction phase of `reportXml`
(core.js 226-259). -/
inductive ReportOutcome where
  | invalidXmlAbort : ReportOutcome
  | noop : ReportOutcome
  | submitted (batch : List CaseResult) (result : SubmitOutcome) : ReportOutcome
deriving Repr

/-- `reportXml` after file reading and XML parsing (core.js 165-260): run
every parsed document through the extractor; on a fatal root error the
process exits; otherwise, if any case results accumulated, submit them all as
one batch through the retry loop, else print the no-op message.  The second
component counts remote-submission invocations (0 when no call is made). -/
def reportXml (configs : Configs) (action : Nat → SubmitResponse)
    (docs : List XmlNode) : ReportOutcome × Nat :=
  match extractAllFiles configs docs with
  | Except.error _ => (ReportOutcome.invalidXmlAbort, 0)
  | Except.ok caseResults =>
    if !caseResults.isEmpty then
      let s := submit action
      (ReportOutcome.submitted caseResults s.1, s.2)
    else
      (ReportOutcome.noop, 0)

/-- Configuration of the end-to-end scenario in the spec:
`caseClassAndNameToIdMap = {"C": {"A": 7}}`. -/
def scenarioConfigs : Configs :=
  { caseClassAndNameToIdMap := some [("C", [("A", 7)])] }

/-- The scenario testcase: `name="A" class="C" time="0"`, no children. -/
def scenarioTestcase : XmlNode :=
  .node "testcase" [("name", "A"), ("class", "C"), ("time", "0")] []

/-- `suite.xml` of the scenario: a single `testsuite` with that one case. -/
def scenarioDoc : XmlNode := .node "testsuite" [("name", "S")] [scenarioTestcase]

/-- What core.js actually builds for the scenario testcase (no `version`). -/
def scenarioResult : CaseResult :=
  { case_id := some 7, elapsed := some "1s", status_id := 1 }

/-- A remote action that succeeds on first call. -/
def alwaysOkAction : Nat → SubmitResponse := fun _ => { ok := true, error := "" }

/-- A remote action that fails on every call, with a distinguishable error. -/
def alwaysFailAction : Nat → SubmitResponse :=
  fun k => { ok := false, error := "err" ++ toString k }

/-- A remote action that fails on the first four calls, then succeeds. -/
def failsFourAction : Nat → SubmitResponse :=
  fun k => if k < 4 then { ok := false, error := "e" } else { ok := true, error := "" }

/-- A class-qualified entry of `0` shadowing a flat entry of `9`. -/
def zeroClassConfigs : Configs :=
  { caseClassAndNameToIdMap := some [("C", [("A", 0)])],
    caseNameToIdMap := some [("A", 9)] }

/-- Both the class-qualified and the flat entry are `0`. -/
def zeroBothConfigs : Configs :=
  { caseClassAndNameToIdMap := some [("C", [("A", 0)])],
    caseNameToIdMap := some [("A", 0)] }

/-- A passing testcase node with `class="C" name="A"` and no children. -/
def caseNodeCA : XmlNode := .node "testcase" [("name", "A"), ("class", "C")] []

/-- An input file whose root is a `testsuite` element with zero children. -/
def emptySuiteDoc : XmlNode := .node "testsuite" [("name", "Empty")] []

/-- A class-qualified entry 7 shadowing a flat entry 9 for the same name. -/
def shadowConfigs : Configs :=
  { caseClassAndNameToIdMap := some [("C", [("A", 7)])],
    caseNameToIdMap := some [("A", 9)] }

/-- A document interleaving two resolvable testcases with an unresolvable
one. -/
def mixedChildren : List XmlNode :=
  [caseNodeCA,
   .node "testcase" [("name", "Z")] [],
   .node "testcase" [("name", "A"), ("class", "C")] []]

/-- A failure child whose `message` attribute is present but empty. -/
def emptyMessageChild : XmlNode := .node "failure" [("message", "")] []

/-- A resolvable failed testcase whose first child carries `message=""`. -/
def emptyMessageCase : XmlNode :=
  .node "testcase" [("name", "A"), ("class", "C")] [emptyMessageChild]

/-- The Case Result core.js builds for the failed testcase whose first child
carries `message="Oops &amp; fail"`. -/
def decodedMessageResult : CaseResult :=
  { case_id := some 7, status_id := 5, comment := some "Oops & fail" }

/-- `jsMathCeilPow10` computes the true ceiling of `num / 10 ^ pow`. -/
theorem jsMathCeilPow10_eq_ceil (num : Int) (pow : Nat) :
    jsMathCeilPow10 num pow = ⌈(num : ℚ) / (10 : ℚ) ^ pow⌉ := by
  have h10 : ((10 : ℚ) ^ pow) = (((10 ^ pow : ℕ)) : ℚ) := by push_cast; ring
  have h2 : ⌊((-num : ℤ) : ℚ) / ((10 ^ pow : ℕ) : ℚ)⌋ = (-num) / ((10 ^ pow : ℕ) : ℤ) :=
    Rat.floor_intCast_div_natCast (-num) (10 ^ pow)
  rw [← neg_neg (⌈(num : ℚ) / (10 : ℚ) ^ pow⌉), ← Int.floor_neg]
  rw [h10, ← neg_div]
  rw [show (-((num : ℤ) : ℚ)) = ((-num : ℤ) : ℚ) by push_cast; ring]
  rw [h2, jsMathCeilPow10]
  congr 2
  push_cast
  ring

/-- The rational value denoted by `(num, pow)` is zero exactly when `num` is. -/
theorem div_pow10_eq_zero_iff (num : Int) (pow : Nat) :
    ((num : ℚ) / (10 : ℚ) ^ pow = 0) ↔ num = 0 := by
  rw [div_eq_zero_iff]
  constructor
  · rintro (h | h)
    · exact_mod_cast h
    · exact absurd h (by positivity)
  · intro h; left; exact_mod_cast h

/-- Retry loop on an action that never succeeds: starting with `remaining`
retries left and `k` calls made, it makes `remaining + 1` more calls and
fails with the error of the last one. -/
theorem addResultsForCasesAttempt_allFail (action : Nat → SubmitResponse)
    (hf : ∀ j, (action j).ok = false) :
    ∀ remaining k, addResultsForCasesAttempt action remaining k =
      (SubmitOutcome.failure (action (k + remaining)).error, k + remaining + 1) := by
  intro remaining
  induction remaining with
  | zero => intro k; simp [addResultsForCasesAttempt, hf k]
  | succ r ih =>
    intro k
    rw [addResultsForCasesAttempt]
    simp only [hf k, Bool.false_eq_true, if_false]
    rw [ih (k + 1)]
    have hk : k + 1 + r = k + (r + 1) := by omega
    rw [hk]

/-- Every Case Result built by `processTestcase` has a truthy (non-null,
non-zero) `case_id`, carries no `version` field, and its `status_id` is
1 or 5. -/
theorem processTestcase_invariants (configs : Configs) (tc : XmlNode) (r : CaseResult)
    (h : processTestcase configs tc = some r) :
    jsTruthyId r.case_id = true ∧ r.version = none ∧ (r.status_id = 1 ∨ r.status_id = 5) := by
  rcases tc with ⟨nm, attrs, cs⟩
  rw [processTestcase.eq_def] at h
  simp only [] at h
  by_cases hnm : nm = "testcase"
  · simp only [hnm, if_true] at h
    set cid := resolveCaseIdFromTestCase configs (.node "testcase" attrs cs) with hcid
    by_cases ht : jsTruthyId cid
    · rw [if_pos ht] at h
      obtain rfl := (Option.some_inj.mp h).symm
      refine ⟨ht, rfl, ?_⟩
      rcases cs with _ | ⟨first, rest⟩
      · left; rfl
      · right; rfl
    · rw [if_neg ht] at h
      cases h
  · rw [if_neg hnm] at h
    cases h

/-- `processTestcase` yields a result exactly on `testcase` children whose
resolved case id is truthy. -/
theorem processTestcase_isSome (configs : Configs) (c : XmlNode) :
    (processTestcase configs c).isSome =
      (decide (c.nodeName = "testcase") &&
       jsTruthyId (resolveCaseIdFromTestCase configs c)) := by
  rcases c with ⟨nm, attrs, cs⟩
  rw [processTestcase.eq_def]
  simp only [XmlNode.nodeName]
  by_cases hnm : nm = "testcase"
  · subst hnm
    rw [if_pos rfl]
    by_cases ht : jsTruthyId (resolveCaseIdFromTestCase configs (.node "testcase" attrs cs))
    · rw [ht]
      simp
    · rw [Bool.eq_false_iff.mpr ht]
      simp
  · rw [if_neg hnm]
    simp [hnm]

/-- The number of values a `filterMap` keeps is the count of arguments on
which the function fires. -/
theorem filterMap_length_countP {α β : Type} (f : α → Option β) (l : List α) :
    (l.filterMap f).length = l.countP (fun c => (f c).isSome) := by
  induction l with
  | nil => rfl
  | cons hd tl ih =>
    rw [List.filterMap_cons, List.countP_cons]
    cases hf : f hd with
    | none => simpa [hf] using ih
    | some b => simpa [hf] using ih

/-- Any Case Result in a successful extraction was built by
`processTestcase` on some node of the document. -/
theorem parse_ok_provenance (configs : Configs) :
    ∀ (x : XmlNode) (l : List CaseResult),
      parseXmlIntoCaseResults configs x = Except.ok l →
      ∀ r ∈ l, ∃ tc, processTestcase configs tc = some r := by
  refine parseXmlIntoCaseResults.induct configs
    (fun x => ∀ l, parseXmlIntoCaseResults configs x = Except.ok l →
      ∀ r ∈ l, ∃ tc, processTestcase configs tc = some r)
    (fun cs => ∀ l, parseSuiteList configs cs = Except.ok l →
      ∀ r ∈ l, ∃ tc, processTestcase configs tc = some r)
    ?_ ?_ ?_ ?_ ?_ ?_ ?_
  · intro nm attrs cs hcond l hl r hr
    rw [parseXmlIntoCaseResults] at hl
    rw [if_pos hcond] at hl
    obtain rfl : cs.filterMap (processTestcase configs) = l := by simpa using hl
    obtain ⟨tc, _, htc⟩ := List.mem_filterMap.mp hr
    exact ⟨tc, htc⟩
  · intro attrs cs hcond ih l hl r hr
    rw [parseXmlIntoCaseResults, if_neg hcond, if_pos rfl] at hl
    exact ih l hl r hr
  · intro nm attrs cs hcond hnm l hl r hr
    rw [parseXmlIntoCaseResults, if_neg hcond, if_neg hnm] at hl
    cases hl
  · intro l hl r hr
    rw [parseSuiteList] at hl
    obtain rfl : ([] : List CaseResult) = l := by simpa using hl
    cases hr
  · intro c rest e hc ih1 l hl r hr
    rw [parseSuiteList, hc] at hl
    cases hl
  · intro c rest l1 hc e hrest ih1 ih2 l hl r hr
    rw [parseSuiteList, hc, hrest] at hl
    cases hl
  · intro c rest l1 hc l2 hrest ih1 ih2 l hl r hr
    rw [parseSuiteList, hc, hrest] at hl
    obtain rfl : l1 ++ l2 = l := by simpa using hl
    rcases List.mem_append.mp hr with h | h
    · exact ih1 l1 hc r h
    · exact ih2 l2 hrest r h

/-- A `testsuites` child list aborts exactly when the recursive processing
of some child aborts. -/
theorem parseSuiteList_error_iff (configs : Configs) (cs : List XmlNode) :
    parseSuiteList configs cs = Except.error () ↔
      ∃ c ∈ cs, parseXmlIntoCaseResults configs c = Except.error () := by
  induction cs with
  | nil => simp [parseSuiteList]
  | cons c rest ih =>
    constructor
    · intro h
      rw [parseSuiteList] at h
      cases hc : parseXmlIntoCaseResults configs c with
      | error e => cases e; exact ⟨c, List.mem_cons_self c rest, hc⟩
      | ok l1 =>
        rw [hc] at h
        cases hrest : parseSuiteList configs rest with
        | error e =>
          cases e
          obtain ⟨d, hd, he⟩ := ih.mp hrest
          exact ⟨d, List.mem_cons_of_mem c hd, he⟩
        | ok l2 => rw [hrest] at h; cases h
    · rintro ⟨d, hd, he⟩
      rw [parseSuiteList]
      rcases List.mem_cons.mp hd with rfl | hd2
      · rw [he]
      · cases hc : parseXmlIntoCaseResults configs c with
        | error e => cases e; rfl
        | ok l1 =>
          have hres : parseSuiteList configs rest = Except.error () := ih.mpr ⟨d, hd2, he⟩
          rw [hres]

/-- `classAndNameHit` never returns a falsy id: its truthiness guard filters
zero out. -/
theorem classAndNameHit_ne_zero (configs : Configs) (tc tn : String) (v : Int)
    (h : classAndNameHit configs tc tn = some v) : v ≠ 0 := by
  rw [classAndNameHit] at h
  split at h
  · cases h
  · split at h
    · cases h
    · split at h
      · split at h
        next hw =>
          obtain rfl := Option.some_inj.mp h
          simpa using hw
        next => cases h
      · cases h

/-- `nameHit` never returns a falsy id. -/
theorem nameHit_ne_zero (configs : Configs) (tn : String) (v : Int)
    (h : nameHit configs tn = some v) : v ≠ 0 := by
  rw [nameHit] at h
  split at h
  · cases h
  · split at h
    · split at h
      next hw =>
        obtain rfl := Option.some_inj.mp h
        simpa using hw
      next => cases h
    · cases h

/-- Claim C1 (code slip): for an action that fails on every attempt, the
retry loop shared by init, finish and report invokes the action SIX times —
the initial call plus `maxCallAttemptsAllowed` retries, since
`apiCallsAttempted` counts retries, not calls — and then fails with the
error of the last (sixth) response; for an action failing exactly the first
four attempts, it succeeds using exactly 5 invocations.  The first conjunct
contradicts the claimed/documented bound of 5 total invocations ("never a
6th"). -/
theorem submit_retry_invocation_counts :
    (∀ action : Nat → SubmitResponse, (∀ j, (action j).ok = false) →
       submit action = (SubmitOutcome.failure (action 5).error, 6))
  ∧ (∀ action : Nat → SubmitResponse,
       (∀ j, j < 4 → (action j).ok = false) → (action 4).ok = true →
       submit action = (SubmitOutcome.success, 5)) := by
  constructor
  · intro action hf
    have h := addResultsForCasesAttempt_allFail action hf 5 0
    simpa [submit, maxCallAttemptsAllowed] using h
  · intro action hf hs
    have h0 := hf 0 (by omega)
    have h1 := hf 1 (by omega)
    have h2 := hf 2 (by omega)
    have h3 := hf 3 (by omega)
    simp [submit, maxCallAttemptsAllowed, addResultsForCasesAttempt, h0, h1, h2, h3, hs]

/-- Concrete instantiation of the retry-count theorem: six invocations and
the sixth error for the always-failing action; five and success for the
fails-four-times action. -/
theorem submit_retry_invocation_counts_witness :
    submit alwaysFailAction = (SubmitOutcome.failure "err5", 6)
  ∧ submit failsFourAction = (SubmitOutcome.success, 5) := by
  constructor
  · have h := submit_retry_invocation_counts.1 alwaysFailAction (fun j => rfl)
    rw [h]
    rfl
  · exact submit_retry_invocation_counts.2 failsFourAction
      (fun j hj => by simp [alwaysFailAction, failsFourAction, hj])
      (by simp [failsFourAction])

/-- Claim C2 counterexample: running the spec's end-to-end report scenario
(`testsuite` with one testcase `name="A" class="C" time="0"`, class map
`{"C": {"A": 7}}`), the single submitted Case Result has NO `version` field
(core.js never assigns one), not `version = "test"`. -/
theorem version_tag_counterexample :
    reportXml scenarioConfigs alwaysOkAction [scenarioDoc] =
      (ReportOutcome.submitted [scenarioResult] SubmitOutcome.success, 1)
  ∧ scenarioResult.version ≠ some "test" :=
  ⟨rfl, by simp [scenarioResult]⟩

/-- Claim C2 (amended): no Case Result emitted by the extractor — hence no
element of a submitted batch — carries a `version` field at all, and the
end-to-end scenario submits exactly
`{case_id: 7, status_id: 1, elapsed: "1s"}` (no `version`, no `comment`). -/
theorem version_field_never_set :
    (∀ (configs : Configs) (x : XmlNode) (l : List CaseResult),
       parseXmlIntoCaseResults configs x = Except.ok l → ∀ r ∈ l, r.version = none)
  ∧ reportXml scenarioConfigs alwaysOkAction [scenarioDoc] =
      (ReportOutcome.submitted
        [{ case_id := some 7, elapsed := some "1s", status_id := 1,
           comment := none, version := none }] SubmitOutcome.success, 1) := by
  constructor
  · intro configs x l hl r hr
    obtain ⟨tc, htc⟩ := parse_ok_provenance configs x l hl r hr
    exact (processTestcase_invariants configs tc r htc).2.1
  · rfl

/-- Concrete instantiation: the scenario's emitted result has `version = none`. -/
theorem version_field_never_set_witness : scenarioResult.version = none :=
  version_field_never_set.1 scenarioConfigs scenarioDoc [scenarioResult] rfl
    scenarioResult (by simp)

/-- Claim C3 counterexample: a root tagged `testsuite` — one of the two
accepted tags — but with zero children falls through both accepting branches
(the `testsuite` branch also requires `xml.root.children.length` truthy) and
hits the fatal "Invalid xml" abort. -/
theorem empty_testsuite_root_counterexample :
    parseXmlIntoCaseResults scenarioConfigs emptySuiteDoc = Except.error () := rfl

/-- Claim C3 (amended): the fatal whole-file abort happens exactly when a
node processed in root position (a file root, or a `testsuites` child,
recursively) has a tag other than `testsuite`/`testsuites` OR is a
`testsuite` with zero children: (a) any other tag aborts; (b) an empty
`testsuite` aborts; (c) a `testsuite` with at least one child never aborts;
(d) an empty `testsuites` yields the empty sequence; (e) a `testsuites` root
delegates to its children and aborts exactly when some child, processed as a
root, aborts. -/
theorem invalid_root_characterization (configs : Configs) :
    (∀ nm attrs cs, nm ≠ "testsuite" → nm ≠ "testsuites" →
       parseXmlIntoCaseResults configs (.node nm attrs cs) = Except.error ())
  ∧ (∀ attrs, parseXmlIntoCaseResults configs (.node "testsuite" attrs []) =
       Except.error ())
  ∧ (∀ attrs cs, cs ≠ [] →
       parseXmlIntoCaseResults configs (.node "testsuite" attrs cs) =
         Except.ok (cs.filterMap (processTestcase configs)))
  ∧ (∀ attrs, parseXmlIntoCaseResults configs (.node "testsuites" attrs []) =
       Except.ok [])
  ∧ (∀ attrs cs,
       parseXmlIntoCaseResults configs (.node "testsuites" attrs cs) =
         parseSuiteList configs cs
       ∧ (parseSuiteList configs cs = Except.error () ↔
           ∃ c ∈ cs, parseXmlIntoCaseResults configs c = Except.error ())) := by
  refine ⟨?_, ?_, ?_, ?_, ?_⟩
  · intro nm attrs cs h1 h2
    rw [parseXmlIntoCaseResults]
    simp [h1, h2]
  · intro attrs
    rw [parseXmlIntoCaseResults]
    simp
  · intro attrs cs h
    rcases cs with _ | ⟨c, cs⟩
    · exact absurd rfl h
    · rw [parseXmlIntoCaseResults]
      simp
  · intro attrs
    rw [parseXmlIntoCaseResults]
    simp [parseSuiteList]
  · intro attrs cs
    constructor
    · rw [parseXmlIntoCaseResults]
      simp
    · exact parseSuiteList_error_iff configs cs

/-- Concrete instantiation of the root characterization: a foreign root tag
aborts, an empty `testsuites` root and a one-case `testsuite` root do not. -/
theorem invalid_root_characterization_witness :
    parseXmlIntoCaseResults scenarioConfigs (.node "suite" [] []) = Except.error ()
  ∧ parseXmlIntoCaseResults scenarioConfigs (.node "testsuites" [] []) = Except.ok []
  ∧ parseXmlIntoCaseResults scenarioConfigs scenarioDoc =
      Except.ok ([scenarioTestcase].filterMap (processTestcase scenarioConfigs)) :=
  ⟨(invalid_root_characterization scenarioConfigs).1 "suite" [] [] (by decide) (by decide),
   (invalid_root_characterization scenarioConfigs).2.2.2.1 [],
   (invalid_root_characterization scenarioConfigs).2.2.1 [("name", "S")] [scenarioTestcase]
     (by simp)⟩

/-- Claim C4: for every emitted Case Result of a `testcase` node carrying a
`time` attribute denoting the numeric value `num / 10 ^ pow`, the `elapsed`
field is `"<n>s"` where `n` is that value rounded up to the nearest whole
second, except that a value of exactly zero produces `1` (hence `"1s"`); for
a `testcase` node with no `time` attribute, the result has no `elapsed`
field. -/
theorem elapsed_time_rounding (configs : Configs) (attrs : List (String × String))
    (cs : List XmlNode) (r : CaseResult)
    (h : processTestcase configs (.node "testcase" attrs cs) = some r) :
    (∀ t num pow, jsGet attrs "time" = some t → parseDecimal t = some (num, pow) →
       r.elapsed = some (toString
         (if ((num : ℚ) / (10 : ℚ) ^ pow) = 0 then (1 : Int)
          else ⌈(num : ℚ) / (10 : ℚ) ^ pow⌉) ++ "s"))
  ∧ (jsGet attrs "time" = none → r.elapsed = none) := by
  rw [processTestcase.eq_def] at h
  simp only [if_pos rfl] at h
  by_cases ht : jsTruthyId (resolveCaseIdFromTestCase configs (.node "testcase" attrs cs))
  · rw [if_pos ht] at h
    obtain rfl := (Option.some_inj.mp h).symm
    constructor
    · intro t num pow hat hpd
      simp only [hat, hpd]
      congr 2
      have hz := div_pow10_eq_zero_iff num pow
      by_cases h0 : num = 0
      · rw [if_pos h0, if_pos (hz.mpr h0)]
      · rw [if_neg h0, if_neg (fun hq => h0 (hz.mp hq)), jsMathCeilPow10_eq_ceil]
    · intro hat
      simp only [hat]
  · rw [if_neg ht] at h
    cases h

/-- Concrete instantiation of the elapsed law at `time="4.2"`: the value is
42/10 and the emitted `elapsed` (known to be `"5s"` by evaluation) equals
the rounded-up formatting of that value. -/
theorem elapsed_time_rounding_witness :
    ({ case_id := some 7, elapsed := some "5s", status_id := 1 } : CaseResult).elapsed =
      some (toString
        (if (((42 : Int) : ℚ) / (10 : ℚ) ^ (1 : Nat)) = 0 then (1 : Int)
         else ⌈((42 : Int) : ℚ) / (10 : ℚ) ^ (1 : Nat)⌉) ++ "s") :=
  (elapsed_time_rounding scenarioConfigs [("name", "A"), ("class", "C"), ("time", "4.2")]
    [] _ rfl).1 "4.2" 42 1 rfl rfl

/-- Claim C5 counterexample: with `caseClassAndNameToIdMap = {"C": {"A": 0}}`
and `caseNameToIdMap = {"A": 9}`, the class-qualified table contains class
`"C"` and its sub-table contains name `"A"`, yet resolve returns the flat
value 9, not the class-qualified entry's value 0. -/
theorem class_precedence_counterexample :
    resolveCaseIdFromTestCase zeroClassConfigs caseNodeCA = some 9
  ∧ (some (9 : Int) : Option Int) ≠ some 0 :=
  ⟨rfl, by decide⟩

/-- Claim C5 (amended): the class-qualified entry wins whenever it exists
AND is truthy (non-zero), even when the flat table also contains the name;
when the class-qualified lookup produces nothing truthy, a truthy flat entry
is returned.  Both `class` and `name` are entity-decoded before the
exact-string lookups (visible in the statement's lookup keys). -/
theorem resolve_two_tier_precedence (configs : Configs) (tc : XmlNode) :
    (∀ m sub v, configs.caseClassAndNameToIdMap = some m →
       jsGet m (htmlDecodeOpt (jsGet tc.nodeAttrs "class")) = some sub →
       jsGet sub (htmlDecodeOpt (jsGet tc.nodeAttrs "name")) = some v →
       v ≠ 0 →
       resolveCaseIdFromTestCase configs tc = some v)
  ∧ (∀ fm w,
       classAndNameHit configs (htmlDecodeOpt (jsGet tc.nodeAttrs "class"))
         (htmlDecodeOpt (jsGet tc.nodeAttrs "name")) = none →
       configs.caseNameToIdMap = some fm →
       jsGet fm (htmlDecodeOpt (jsGet tc.nodeAttrs "name")) = some w →
       w ≠ 0 →
       resolveCaseIdFromTestCase configs tc = some w) := by
  constructor
  · intro m sub v hm hc hn hv
    have hhit : classAndNameHit configs (htmlDecodeOpt (jsGet tc.nodeAttrs "class"))
        (htmlDecodeOpt (jsGet tc.nodeAttrs "name")) = some v := by
      simp [classAndNameHit, hm, hc, hn, hv]
    simp [resolveCaseIdFromTestCase, hhit]
  · intro fm w hmiss hfm hw hw0
    simp [resolveCaseIdFromTestCase, hmiss, nameHit, hfm, hw, hw0]

/-- Concrete instantiation of the precedence law: with both tables
populated, the class-qualified 7 wins over the flat 9; with a falsy
class-qualified entry, the flat 9 is returned. -/
theorem resolve_two_tier_precedence_witness :
    resolveCaseIdFromTestCase shadowConfigs caseNodeCA = some 7
  ∧ resolveCaseIdFromTestCase zeroClassConfigs caseNodeCA = some 9 :=
  ⟨(resolve_two_tier_precedence shadowConfigs caseNodeCA).1
      [("C", [("A", 7)])] [("A", 7)] 7 rfl rfl rfl (by decide),
   (resolve_two_tier_precedence zeroClassConfigs caseNodeCA).2
      [("A", 9)] 9 rfl rfl rfl (by decide)⟩

/-- Claim C6 counterexample: the degenerate document with zero resolvable
and zero unresolvable entries — a `testsuite` root with no children — makes
the extractor abort instead of yielding the empty (N = 0) sequence. -/
theorem zero_entry_document_counterexample :
    parseXmlIntoCaseResults zeroClassConfigs (.node "testsuite" [] []) =
      Except.error () := rfl

/-- Claim C6 (amended): for a `testsuite` document with at least one child,
extraction succeeds (no abort) and yields exactly the resolvable `testcase`
entries in document order: the batch is the `filterMap` of the per-testcase
reduction, its length is the count N of children that are `testcase` nodes
with truthy resolution (unresolvable ones are dropped, in any interleaving),
and every emitted result has a truthy (non-null) `case_id`. -/
theorem unresolved_cases_dropped (configs : Configs) (attrs : List (String × String))
    (cs : List XmlNode) (h : cs ≠ []) :
    parseXmlIntoCaseResults configs (.node "testsuite" attrs cs) =
      Except.ok (cs.filterMap (processTestcase configs))
  ∧ (cs.filterMap (processTestcase configs)).length =
      cs.countP (fun c => decide (c.nodeName = "testcase") &&
        jsTruthyId (resolveCaseIdFromTestCase configs c))
  ∧ (∀ r ∈ cs.filterMap (processTestcase configs), jsTruthyId r.case_id = true) := by
  refine ⟨?_, ?_, ?_⟩
  · rcases cs with _ | ⟨c, cs⟩
    · exact absurd rfl h
    · rw [parseXmlIntoCaseResults]
      simp
  · rw [filterMap_length_countP]
    congr 1
    funext c
    exact processTestcase_isSome configs c
  · intro r hr
    obtain ⟨tc, _, htc⟩ := List.mem_filterMap.mp hr
    exact (processTestcase_invariants configs tc r htc).1

/-- Concrete instantiation of the filtering law on the interleaved document:
N = 2 of the 3 entries resolve, and exactly those 2 are emitted. -/
theorem unresolved_cases_dropped_witness :
    parseXmlIntoCaseResults scenarioConfigs (.node "testsuite" [] mixedChildren) =
      Except.ok (mixedChildren.filterMap (processTestcase scenarioConfigs))
  ∧ (mixedChildren.filterMap (processTestcase scenarioConfigs)).length = 2 := by
  constructor
  · exact (unresolved_cases_dropped scenarioConfigs [] mixedChildren (by simp [mixedChildren])).1
  · rfl

/-- Claim C7 counterexample: the first child's `message` attribute is
present (with value `""`), yet the emitted Case Result omits `comment` —
the code tests truthiness of `message`, not presence, and `""` is falsy. -/
theorem comment_empty_message_counterexample :
    jsGet emptyMessageChild.nodeAttrs "message" = some ""
  ∧ processTestcase scenarioConfigs emptyMessageCase =
      some { case_id := some 7, status_id := 5, comment := none }
  ∧ (none : Option String) ≠ some (htmlDecode "") :=
  ⟨rfl, rfl, by simp⟩

/-- Claim C7 (amended): a childless `testcase` yields `status_id = 1` and no
`comment`; a `testcase` with children yields `status_id = 5`, with `comment`
the entity-decoded `message` of the FIRST child when that attribute is
present and non-empty, and no `comment` when it is absent OR empty; children
after the first never affect the result. -/
theorem status_and_comment_derivation (configs : Configs)
    (attrs : List (String × String)) (cs : List XmlNode) (r : CaseResult)
    (h : processTestcase configs (.node "testcase" attrs cs) = some r) :
    (cs = [] → r.status_id = 1 ∧ r.comment = none)
  ∧ (∀ first rest, cs = first :: rest →
       r.status_id = 5
       ∧ (∀ m, jsGet first.nodeAttrs "message" = some m → m ≠ "" →
           r.comment = some (htmlDecode m))
       ∧ (jsGet first.nodeAttrs "message" = some "" → r.comment = none)
       ∧ (jsGet first.nodeAttrs "message" = none → r.comment = none))
  ∧ (∀ first rest rest2,
       processTestcase configs (.node "testcase" attrs (first :: rest)) =
         processTestcase configs (.node "testcase" attrs (first :: rest2))) := by
  refine ⟨?_, ?_, ?_⟩
  · rintro rfl
    rw [processTestcase.eq_def] at h
    simp only [if_pos rfl] at h
    by_cases ht : jsTruthyId (resolveCaseIdFromTestCase configs (.node "testcase" attrs []))
    · rw [if_pos ht] at h
      obtain rfl := (Option.some_inj.mp h).symm
      exact ⟨rfl, rfl⟩
    · rw [if_neg ht] at h
      cases h
  · rintro first rest rfl
    rw [processTestcase.eq_def] at h
    simp only [if_pos rfl] at h
    by_cases ht : jsTruthyId
        (resolveCaseIdFromTestCase configs (.node "testcase" attrs (first :: rest)))
    · rw [if_pos ht] at h
      obtain rfl := (Option.some_inj.mp h).symm
      refine ⟨rfl, ?_, ?_, ?_⟩
      · intro m hm hne
        simp only [hm]
        have : (m != "") = true := by simpa using hne
        simp [this]
      · intro hm
        simp [hm]
      · intro hm
        simp [hm]
    · rw [if_neg ht] at h
      cases h
  · intro first rest rest2
    rw [processTestcase.eq_def, processTestcase.eq_def]
    simp only [if_pos rfl]
    have hres : resolveCaseIdFromTestCase configs (.node "testcase" attrs (first :: rest)) =
        resolveCaseIdFromTestCase configs (.node "testcase" attrs (first :: rest2)) := rfl
    rw [hres]

/-- Concrete instantiation of the status/comment law on the
`message="Oops &amp; fail"` example (the comment decodes to
`"Oops & fail"` by evaluation of `htmlDecode`). -/
theorem status_and_comment_derivation_witness :
    decodedMessageResult.status_id = 5
  ∧ decodedMessageResult.comment = some (htmlDecode "Oops &amp; fail") := by
  have h := (status_and_comment_derivation scenarioConfigs
      [("name", "A"), ("class", "C")]
      [.node "failure" [("message", "Oops &amp; fail")] []]
      decodedMessageResult rfl).2.1
      (.node "failure" [("message", "Oops &amp; fail")] []) [] rfl
  exact ⟨h.1, h.2.1 "Oops &amp; fail" rfl (by decide)⟩

/-- Claim C8: (i) a `testsuites` root whose two `testsuite` children each
hold one reducible testcase yields exactly the two results in document
order; (ii) a `testsuites` node with no children yields the empty sequence,
not an error; (iii) inside a `testsuite`, a child not tagged `testcase` is
skipped without error, contributing nothing. -/
theorem testsuites_traversal (configs : Configs) :
    (∀ a a1 a2 c1 c2 r1 r2,
       processTestcase configs c1 = some r1 → processTestcase configs c2 = some r2 →
       parseXmlIntoCaseResults configs
         (.node "testsuites" a [.node "testsuite" a1 [c1], .node "testsuite" a2 [c2]]) =
         Except.ok [r1, r2])
  ∧ (∀ a, parseXmlIntoCaseResults configs (.node "testsuites" a []) = Except.ok [])
  ∧ (∀ attrs cs1 cs2 c, c.nodeName ≠ "testcase" →
       parseXmlIntoCaseResults configs (.node "testsuite" attrs (cs1 ++ c :: cs2)) =
         Except.ok (cs1.filterMap (processTestcase configs) ++
           cs2.filterMap (processTestcase configs))) := by
  refine ⟨?_, ?_, ?_⟩
  · intro a a1 a2 c1 c2 r1 r2 h1 h2
    rw [parseXmlIntoCaseResults]
    simp only [parseSuiteList]
    rw [parseXmlIntoCaseResults, parseXmlIntoCaseResults]
    simp [h1, h2, parseSuiteList]
  · intro a
    rw [parseXmlIntoCaseResults]
    simp [parseSuiteList]
  · intro attrs cs1 cs2 c hc
    have hnone : processTestcase configs c = none := by
      have hs := processTestcase_isSome configs c
      rw [decide_eq_false hc] at hs
      simp only [Bool.false_and] at hs
      exact Option.not_isSome_iff_eq_none.mp (by simp [hs])
    rw [parseXmlIntoCaseResults]
    simp [hnone, List.filterMap_append, List.filterMap_cons]

/-- Concrete instantiation of the traversal law: a two-suite document yields
the two scenario-style results in order; an empty `testsuites` yields `[]`;
a `properties` child inside a suite is skipped. -/
theorem testsuites_traversal_witness :
    parseXmlIntoCaseResults scenarioConfigs
      (.node "testsuites" []
        [.node "testsuite" [("name", "S1")] [scenarioTestcase],
         .node "testsuite" [("name", "S2")] [caseNodeCA]]) =
      Except.ok [scenarioResult, { case_id := some 7, status_id := 1 }]
  ∧ parseXmlIntoCaseResults scenarioConfigs (.node "testsuites" [("name", "T")] []) =
      Except.ok []
  ∧ parseXmlIntoCaseResults scenarioConfigs
      (.node "testsuite" [] ([] ++ XmlNode.node "properties" [] [] :: [caseNodeCA])) =
      Except.ok ([].filterMap (processTestcase scenarioConfigs) ++
        [caseNodeCA].filterMap (processTestcase scenarioConfigs)) :=
  ⟨(testsuites_traversal scenarioConfigs).1 [] [("name", "S1")] [("name", "S2")]
      scenarioTestcase caseNodeCA scenarioResult { case_id := some 7, status_id := 1 }
      rfl rfl,
   (testsuites_traversal scenarioConfigs).2.1 [("name", "T")],
   (testsuites_traversal scenarioConfigs).2.2 [] [] [caseNodeCA]
      (XmlNode.node "properties" [] []) (by decide)⟩

/-- Claim C9: when the concatenated per-file Case Result sequence is empty,
`reportXml` reports the no-op outcome and performs zero remote-submission
calls; when it is non-empty, the whole sequence is submitted through the
retry-bounded submitter as one batch. -/
theorem report_noop_or_one_batch (configs : Configs) (action : Nat → SubmitResponse)
    (docs : List XmlNode) :
    (extractAllFiles configs docs = Except.ok [] →
       reportXml configs action docs = (ReportOutcome.noop, 0))
  ∧ (∀ l, extractAllFiles configs docs = Except.ok l → l ≠ [] →
       reportXml configs action docs =
         (ReportOutcome.submitted l (submit action).1, (submit action).2)) := by
  constructor
  · intro h
    rw [reportXml, h]
    rfl
  · intro l h hne
    rw [reportXml, h]
    rcases l with _ | ⟨x, l⟩
    · exact absurd rfl hne
    · rfl

/-- Concrete instantiation of the no-op/one-batch law: no input files means
no remote call; the scenario file produces one batch through the submitter. -/
theorem report_noop_or_one_batch_witness :
    reportXml scenarioConfigs alwaysOkAction [] = (ReportOutcome.noop, 0)
  ∧ reportXml scenarioConfigs alwaysOkAction [scenarioDoc] =
      (ReportOutcome.submitted [scenarioResult] (submit alwaysOkAction).1,
       (submit alwaysOkAction).2) :=
  ⟨(report_noop_or_one_batch scenarioConfigs alwaysOkAction []).1 rfl,
   (report_noop_or_one_batch scenarioConfigs alwaysOkAction [scenarioDoc]).2
      [scenarioResult] rfl (by simp)⟩

/-- Claim C10: a configured id of 0 is falsy, so (i) a class-qualified entry
of 0 makes resolution fall through to the flat table; (ii) if the flat entry
is also 0 (with the class-qualified lookup yielding nothing truthy),
resolution returns null; (iii) resolution never returns 0 itself — so a
0-valued mapping behaves exactly like a missing mapping; and (iv) every
Case Result that enters the batch has a truthy case id. -/
theorem falsy_case_id_unresolved (configs : Configs) (tc : XmlNode) :
    (∀ m sub, configs.caseClassAndNameToIdMap = some m →
       jsGet m (htmlDecodeOpt (jsGet tc.nodeAttrs "class")) = some sub →
       jsGet sub (htmlDecodeOpt (jsGet tc.nodeAttrs "name")) = some 0 →
       resolveCaseIdFromTestCase configs tc =
         nameHit configs (htmlDecodeOpt (jsGet tc.nodeAttrs "name")))
  ∧ (∀ fm, configs.caseNameToIdMap = some fm →
       jsGet fm (htmlDecodeOpt (jsGet tc.nodeAttrs "name")) = some 0 →
       classAndNameHit configs (htmlDecodeOpt (jsGet tc.nodeAttrs "class"))
         (htmlDecodeOpt (jsGet tc.nodeAttrs "name")) = none →
       resolveCaseIdFromTestCase configs tc = none)
  ∧ (∀ v, resolveCaseIdFromTestCase configs tc = some v → v ≠ 0)
  ∧ (∀ r, processTestcase configs tc = some r → jsTruthyId r.case_id = true) := by
  refine ⟨?_, ?_, ?_, ?_⟩
  · intro m sub hm hc hn
    have hhit : classAndNameHit configs (htmlDecodeOpt (jsGet tc.nodeAttrs "class"))
        (htmlDecodeOpt (jsGet tc.nodeAttrs "name")) = none := by
      simp [classAndNameHit, hm, hc, hn]
    simp [resolveCaseIdFromTestCase, hhit]
  · intro fm hfm hw hmiss
    simp [resolveCaseIdFromTestCase, hmiss, nameHit, hfm, hw]
  · intro v hv
    rw [resolveCaseIdFromTestCase] at hv
    cases hhit : classAndNameHit configs (htmlDecodeOpt (jsGet tc.nodeAttrs "class"))
        (htmlDecodeOpt (jsGet tc.nodeAttrs "name")) with
    | some w =>
      rw [hhit] at hv
      simp only [] at hv
      obtain rfl := Option.some_inj.mp hv
      exact classAndNameHit_ne_zero configs _ _ _ hhit
    | none =>
      rw [hhit] at hv
      simp only [] at hv
      exact nameHit_ne_zero configs _ v hv
  · intro r hr
    exact (processTestcase_invariants configs tc r hr).1

/-- Concrete instantiation of the falsy-id law on `zeroClassConfigs` /
`zeroBothConfigs`: the 0-valued class entry falls through to the flat 9;
with both entries 0, resolution is null and the testcase is dropped
(`processTestcase` emits nothing). -/
theorem falsy_case_id_unresolved_witness :
    resolveCaseIdFromTestCase zeroClassConfigs caseNodeCA =
      nameHit zeroClassConfigs (htmlDecodeOpt (jsGet caseNodeCA.nodeAttrs "name"))
  ∧ resolveCaseIdFromTestCase zeroBothConfigs caseNodeCA = none :=
  ⟨(falsy_case_id_unresolved zeroClassConfigs caseNodeCA).1
      [("C", [("A", 0)])] [("A", 0)] rfl rfl rfl,
   (falsy_case_id_unresolved zeroBothConfigs caseNodeCA).2.1
      [("A", 0)] rfl rfl rfl⟩
